import Mathlib

/-!
Verification development for the exasol-deployer e2e test core:
the validation-check DSL (`tests/e2e/workflow_engine.py`, ValidationRegistry),
the workflow execution engine (`WorkflowExecutor`), the resource quota monitor
(`tests/e2e/e2e_framework.py`, ResourceQuotaMonitor) and the resource-aware
scheduler (`E2ETestFramework._run_tests_with_resource_scheduling`).

Strings are embedded as `List Char` so that the Python string operations
(prefix tests, substring search, split, strip, lower) are plain structural
functions.  External effects (the provisioning CLI, SSH, the persisted state
file and the health probe) are parameters of the embedding: a `CheckEnv`
carries the observable cluster state, and each step's external process
invocations are an oracle `Nat → ExtResult` giving the outcome of the n-th
invocation the step performs.
-/

/-- Python strings are modelled as lists of characters. -/
abbrev Chars := List Char

deriving instance DecidableEq for Except

/-- Decimal rendering of a natural number, as used by Python f-string
interpolation of a non-negative int. -/
def natToChars (n : Nat) : Chars := (Nat.repr n).toList

/-- ASCII whitespace recognised by Python `str.strip()` (the Unicode cases do
not occur in the repository's check strings). -/
def isSpaceChar (c : Char) : Bool :=
  c == ' ' || c == '\t' || c == '\n' || c == '\r' || c == '\x0B' || c == '\x0C'

/-- Python `str.strip()`: drop leading and trailing whitespace. -/
def stripChars (s : Chars) : Chars :=
  ((s.dropWhile isSpaceChar).reverse.dropWhile isSpaceChar).reverse

/-- Python `pat in s` substring containment. -/
def hasSubstr (pat : Chars) : Chars → Bool
  | [] => pat.isEmpty
  | c :: rest => pat.isPrefixOf (c :: rest) || hasSubstr pat rest

/-- Python `s.split(pat, 1)[1]`: everything after the first occurrence of
`pat` (callers first establish that `pat` occurs in `s`). -/
def afterFirstSub (pat : Chars) : Chars → Chars
  | [] => []
  | c :: rest =>
    if pat.isPrefixOf (c :: rest) then (c :: rest).drop pat.length
    else afterFirstSub pat rest

/-- Python `str.lower()` on the ASCII check strings. -/
def lowerChars (s : Chars) : Chars := s.map Char.toLower

/-- The comparison operator of a dynamic check: `==` or `!=`. -/
inductive CmpOp
  | ceq
  | cne
deriving DecidableEq

/-- Outcome of `ValidationRegistry.get_check` (workflow_engine.py:148-165):
either no check is found (`unknown`, the caller skips it), a dynamic
cluster-status or health-status check is built, or building the health check
raises `ValueError` (`invalid`, carrying the exception message). -/
inductive CheckResolution
  | unknown
  | cluster (op : CmpOp) (expected : Chars)
  | health (selector component : Chars) (op : CmpOp) (expectedValue : Chars)
  | invalid (msg : Chars)
deriving DecidableEq

/-- `ValidationRegistry._create_cluster_status_check` (workflow_engine.py:238-274):
split on the first `==` (checked first) or `!=`; a plain `cluster_status`
defaults to `== database_ready`; the expected value is stripped. -/
def createClusterStatusCheck (name : Chars) : CheckResolution :=
  if hasSubstr ("==".toList) name then
    CheckResolution.cluster CmpOp.ceq (stripChars (afterFirstSub ("==".toList) name))
  else if hasSubstr ("!=".toList) name then
    CheckResolution.cluster CmpOp.cne (stripChars (afterFirstSub ("!=".toList) name))
  else
    CheckResolution.cluster CmpOp.ceq ("database_ready".toList)

/-- The valid health components, listed in the sorted order that the
`ValueError` message uses (`sorted({'ssh','adminui','database','cos_ssh'})`). -/
def validComponents : List Chars :=
  [("adminui".toList), ("cos_ssh".toList), ("database".toList), ("ssh".toList)]

/-- The regex `health_status\[([^\]]+)\]\.([^=!]+)(==|!=)(.+)` of
`_create_health_status_check` (workflow_engine.py:305), applied with
`re.match` to a string already known to start with `health_status[`.
Greedy character classes make backtracking irrelevant, so the match is the
straight-line scan below; `.` in the final group excludes newline, so the
captured value is the remainder up to a newline and must be non-empty. -/
def parseHealthStatusCheck (name : Chars) : Option (Chars × Chars × CmpOp × Chars) :=
  let rest := name.drop (("health_status[".toList).length)
  let sel := rest.takeWhile (fun c => c ≠ ']')
  let rest2 := rest.dropWhile (fun c => c ≠ ']')
  if sel = [] then none
  else
    match rest2 with
    | ']' :: '.' :: rest4 =>
      let comp := rest4.takeWhile (fun c => c ≠ '=' ∧ c ≠ '!')
      let rest5 := rest4.dropWhile (fun c => c ≠ '=' ∧ c ≠ '!')
      if comp = [] then none
      else if ("==".toList).isPrefixOf rest5 then
        let value := (rest5.drop 2).takeWhile (fun c => c ≠ '\n')
        if value = [] then none else some (sel, comp, CmpOp.ceq, value)
      else if ("!=".toList).isPrefixOf rest5 then
        let value := (rest5.drop 2).takeWhile (fun c => c ≠ '\n')
        if value = [] then none else some (sel, comp, CmpOp.cne, value)
      else none
    | _ => none

/-- `ValidationRegistry._create_health_status_check` (workflow_engine.py:276-423):
a regex mismatch raises `ValueError("Invalid health_status check format: …")`;
an unknown component raises `ValueError("Unknown health check component: …")`;
otherwise the parsed, stripped tuple is kept (evaluation happens later). -/
def createHealthStatusCheck (name : Chars) : CheckResolution :=
  match parseHealthStatusCheck name with
  | none =>
    CheckResolution.invalid (("Invalid health_status check format: ".toList) ++ name)
  | some (sel, comp, op, value) =>
    let selector := stripChars sel
    let component := stripChars comp
    let expectedValue := stripChars value
    if component ∈ validComponents then
      CheckResolution.health selector component op expectedValue
    else
      CheckResolution.invalid (("Unknown health check component: ".toList) ++ component ++
        (". Valid: adminui, cos_ssh, database, ssh".toList))

/-- `ValidationRegistry.get_check` (workflow_engine.py:148-165).  The registry's
static check table is empty in the workflow engine (`_register_default_checks`
registers nothing and `register` is never called on this path), so the final
fallback `self.checks.get(check_name)` is `None` (`unknown`). -/
def getCheck (name : Chars) : CheckResolution :=
  if ("cluster_status".toList).isPrefixOf name &&
      (hasSubstr ("==".toList) name || hasSubstr ("!=".toList) name) then
    createClusterStatusCheck name
  else if ("health_status[".toList).isPrefixOf name then
    createHealthStatusCheck name
  else
    CheckResolution.unknown

/-- The per-component pass/fail counters of the health payload
(`health_data['checks'][component]`). -/
structure HealthCounts where
  passed : Nat
  failed : Nat
deriving DecidableEq

/-- The externally observable cluster state a validation check reads:
`status` is `.exasol.json`'s `status` field (`''` when the file or field is
missing, `_read_state` + `state.get('status','')`), and `health_checks` is the
`checks` table of the health payload (`none` when the component is missing,
which also covers an empty payload). -/
structure CheckEnv where
  status : Chars
  health_checks : Chars → Option HealthCounts

/-- The value map of `_create_health_status_check` (workflow_engine.py:318-322):
`value_map.get(expected_value.lower(), expected_value)` with
`ok ↦ true, failed ↦ false`. -/
def mappedExpected (v : Chars) : Chars :=
  if lowerChars v = ("ok".toList) then ("true".toList)
  else if lowerChars v = ("failed".toList) then ("false".toList)
  else v

/-- The dynamic cluster-status check function (workflow_engine.py:260-267):
exact string comparison of the persisted status against the expected value. -/
def evalClusterCheck (env : CheckEnv) (op : CmpOp) (expected : Chars) : Bool :=
  match op with
  | CmpOp.ceq => decide (env.status = expected)
  | CmpOp.cne => decide (env.status ≠ expected)

/-- The dynamic health-status check function (workflow_engine.py:334-416).
A missing `checks[component]` entry returns `False`; otherwise the fleet-wide
counters decide the check.  The wildcard and named-node branches compute the
same condition (per-node filtering is not implemented), so the selector does
not appear here. -/
def evalHealthCheck (env : CheckEnv) (component : Chars) (op : CmpOp)
    (expectedValue : Chars) : Bool :=
  match env.health_checks component with
  | none => false
  | some counts =>
    let expectTrue := decide (lowerChars (mappedExpected expectedValue) = ("true".toList))
    match op with
    | CmpOp.ceq =>
      if expectTrue then decide (counts.failed = 0 ∧ 0 < counts.passed)
      else decide (0 < counts.failed)
    | CmpOp.cne =>
      if expectTrue then decide (0 < counts.failed ∨ counts.passed = 0)
      else decide (counts.failed = 0 ∧ 0 < counts.passed)

/-- Evaluate a resolved check against the observable state (the
`check.check_function(self.context)` call of `_execute_validate`). -/
def evalResolution (env : CheckEnv) : CheckResolution → Bool
  | CheckResolution.cluster op expected => evalClusterCheck env op expected
  | CheckResolution.health _ component op v => evalHealthCheck env component op v
  | _ => false

/-- The retry loop of `_execute_validate` (workflow_engine.py:705-719) for a
check whose evaluation is deterministic in the observable state: starting from
`attempt` with `remaining` attempts left, return the final `(check_passed,
attempt)` pair. -/
def retryEval (evalResult : Bool) : Nat → Nat → Bool × Nat
  | 0, attempt => (false, attempt)
  | remaining + 1, attempt =>
    if evalResult then (true, attempt + 1)
    else retryEval evalResult remaining (attempt + 1)

/-- One entry of `step.validation_results` (workflow_engine.py:723-729). -/
structure CheckOutcome where
  check : Chars
  passed : Bool
  attempts : Nat
  allow_failure : Bool
deriving DecidableEq

/-- The check loop of `WorkflowExecutor._execute_validate`
(workflow_engine.py:690-753).  An `unknown` check is logged and skipped; an
`invalid` resolution is the `ValueError` raised by `get_check`, which escapes
the step body; a resolved check is retried, and a failed check that is not in
`step.allow_failures` raises `RuntimeError("Validation check failed: …")`
(the dynamic checks themselves always have `allow_failure=False`). -/
def validateLoop (env : CheckEnv) (allow_failures : List Chars) (max_attempts : Nat) :
    List Chars → List CheckOutcome → Except Chars (List CheckOutcome)
  | [], acc => Except.ok acc
  | name :: rest, acc =>
    match getCheck name with
    | CheckResolution.unknown => validateLoop env allow_failures max_attempts rest acc
    | CheckResolution.invalid msg => Except.error msg
    | CheckResolution.cluster op expected =>
      let r := retryEval (evalClusterCheck env op expected) max_attempts 0
      if r.1 = false ∧ name ∉ allow_failures then
        Except.error (("Validation check failed: ".toList) ++ name)
      else
        validateLoop env allow_failures max_attempts rest
          (acc ++ [⟨name, r.1, r.2, decide (name ∈ allow_failures)⟩])
    | CheckResolution.health _ component op v =>
      let r := retryEval (evalHealthCheck env component op v) max_attempts 0
      if r.1 = false ∧ name ∉ allow_failures then
        Except.error (("Validation check failed: ".toList) ++ name)
      else
        validateLoop env allow_failures max_attempts rest
          (acc ++ [⟨name, r.1, r.2, decide (name ∈ allow_failures)⟩])

/-- The status enum `StepStatus` (workflow_engine.py:69-75). -/
inductive StepStatus
  | pending
  | running
  | completed
  | failed
  | skipped
deriving DecidableEq

/-- The declarative part of a `WorkflowStep` (workflow_engine.py:88-107) as
produced by `_parse_step_config`.  `retry` keeps only `max_attempts`
(`delay_seconds` only controls sleeping).  The `script` variant of
`custom_command`, which consults the filesystem for the script path, is not
exercised by any claim and is outside this embedding: `command` carries the
inline-command variant. -/
structure WorkflowStep where
  step_type : Chars
  target_node : Option Chars
  method : Option Chars
  command : Option Chars
  checks : List Chars
  allow_failures : List Chars
  retry : Option Nat
deriving DecidableEq

/-- The fields of a `WorkflowStep` that `_execute_step` fills in and
`execute_workflow` returns to the caller: the step kind, its final status and
the captured error text (duration and payload are not modelled). -/
structure StepOutcome where
  step_type : Chars
  status : StepStatus
  error : Option Chars
deriving DecidableEq

/-- Outcome of one external-process invocation (a `subprocess.run` /
`_run_command_with_streaming` call): either the process completed with an exit
status and captured output, or the per-step timeout expired (in Python a
`subprocess.TimeoutExpired` exception). -/
inductive ExtResult
  | completedRun (returncode : Nat) (stdout stderr : Chars)
  | timedOut
deriving DecidableEq

/-- The message of the `subprocess.TimeoutExpired` exception (Python renders
it as `Command '…' timed out after N seconds`; the command and bound are not
needed by any claim, so the text is abbreviated). -/
def timeoutMessage : Chars := ("Command timed out".toList)

/-- The per-test environment a `WorkflowExecutor` runs in: observable cluster
state for checks, the lines of `inventory.ini` (`none` when the file does not
exist), and the deployment directory / provider used for `$`-substitution in
custom commands. -/
structure ExecEnv where
  check_env : CheckEnv
  inventory : Option (List Chars)
  deployment_dir : Chars
  provider : Chars

/-- Python `str.replace(pat, rep)`: replace every non-overlapping occurrence,
left to right (no-op for the empty pattern guard, which never arises here). -/
def replaceAll (pat rep : Chars) (s : Chars) : Chars :=
  match s with
  | [] => []
  | c :: rest =>
    if h : pat ≠ [] ∧ pat.isPrefixOf (c :: rest) then
      rep ++ replaceAll pat rep ((c :: rest).drop pat.length)
    else
      c :: replaceAll pat rep rest
termination_by s.length
decreasing_by
  · simp only [List.length_drop]
    have : 1 ≤ pat.length := List.length_pos.mpr h.1
    simp only [List.length_cons]
    omega
  · simp

/-- The inventory scan of `_execute_restart_node` (workflow_engine.py:809-823):
walk the stripped lines, track whether we are inside the `[exasol_nodes]`
section, and return the first word of the first non-comment line whose first
word equals the target node. -/
def findInventoryNode (target : Chars) : Bool → List Chars → Option Chars
  | _, [] => none
  | inSection, line :: rest =>
    let l := stripChars line
    if l = ("[exasol_nodes]".toList) then findInventoryNode target true rest
    else
      let inSection2 := if ("[".toList).isPrefixOf l then false else inSection
      if inSection2 ∧ l ≠ [] ∧ ¬ ("#".toList).isPrefixOf l = true ∧
          l.takeWhile (fun c => ¬ isSpaceChar c = true) = target then
        some (l.takeWhile (fun c => ¬ isSpaceChar c = true))
      else findInventoryNode target inSection2 rest

/-- The retry loop of `_execute_custom_command` (workflow_engine.py:886-924):
attempt numbers run from 1 to `max_attempts`; exit status 0 succeeds, a
non-zero status records `Custom command failed with exit code …` and retries,
and exhausting the attempts raises the last error.  A `TimeoutExpired` from
`subprocess.run` is not caught inside the loop and escapes at once.
`remaining` counts the attempts still available; `ext n` is the outcome of the
(n+1)-th invocation. -/
def runCustomAttempts (ext : Nat → ExtResult) (lastErr : Option Chars) :
    Nat → Nat → Except Chars Unit
  | _, 0 => Except.error (lastErr.getD ("None".toList))
  | attempt, remaining + 1 =>
    match ext attempt with
    | ExtResult.timedOut => Except.error timeoutMessage
    | ExtResult.completedRun rc _ serr =>
      if rc = 0 then Except.ok ()
      else
        runCustomAttempts ext
          (some (("Custom command failed with exit code ".toList) ++ natToChars rc ++
            (": ".toList) ++ serr))
          (attempt + 1) remaining

/-- A simple single-invocation step body (`init`, `deploy`, `stop_cluster`,
`start_cluster`, `destroy`): run the CLI once; non-zero exit raises
`RuntimeError(prefix + stderr)`, a timeout raises `TimeoutExpired`. -/
def runSimpleCliStep (failPrefix : Chars) (r : ExtResult) : Except Chars Unit :=
  match r with
  | ExtResult.timedOut => Except.error timeoutMessage
  | ExtResult.completedRun rc _ serr =>
    if rc = 0 then Except.ok () else Except.error (failPrefix ++ serr)

/-- The body of `_execute_restart_node` (workflow_engine.py:788-837): requires
a target node and method `ssh`, resolves the node through the inventory, then
issues the SSH reboot.  A timeout of the SSH process raises, but a non-zero
exit status is deliberately accepted ("SSH connection may drop during reboot,
so non-zero exit is expected"). -/
def restartNodeBody (env : ExecEnv) (ext : Nat → ExtResult) (step : WorkflowStep) :
    Except Chars Unit :=
  match step.target_node with
  | none => Except.error ("target_node is required for restart_node".toList)
  | some target =>
    let method := step.method.getD ("ssh".toList)
    if method ≠ ("ssh".toList) then
      Except.error (("Only method='ssh' is supported for restart_node, got: ".toList) ++ method)
    else
      match env.inventory with
      | none => Except.error ("Inventory file not found".toList)
      | some lines =>
        match findInventoryNode target false lines with
        | none =>
          Except.error (("Could not find node ".toList) ++ target ++ (" in inventory".toList))
        | some _ =>
          match ext 0 with
          | ExtResult.timedOut => Except.error timeoutMessage
          | ExtResult.completedRun _ _ _ => Except.ok ()

/-- The body of `_execute_custom_command` (workflow_engine.py:839-924),
restricted to the inline `command` variant: `$deployment_dir` and `$provider`
are substituted, then the retry loop runs with `max_attempts` from
`step.retry` (default 1). -/
def customCommandBody (env : ExecEnv) (ext : Nat → ExtResult) (step : WorkflowStep) :
    Except Chars Unit :=
  match step.command with
  | none => Except.error ("command or script is required for custom_command step".toList)
  | some cmd0 =>
    let _cmd := replaceAll ("$provider".toList) env.provider
      (replaceAll ("$deployment_dir".toList) env.deployment_dir cmd0)
    let max_attempts := step.retry.getD 1
    runCustomAttempts ext none 0 max_attempts

/-- The dispatch of `WorkflowExecutor._execute_step` (workflow_engine.py:589-608)
as the step body inside the `try`: each branch either returns (the step will be
`COMPLETED`) or raises an error string (the step will be `FAILED`).  An
unrecognised step type raises `ValueError("Unknown step type: …")`. -/
def stepBody (env : ExecEnv) (ext : Nat → ExtResult) (step : WorkflowStep) :
    Except Chars Unit :=
  if step.step_type = ("init".toList) then
    runSimpleCliStep ("Init failed: ".toList) (ext 0)
  else if step.step_type = ("deploy".toList) then
    runSimpleCliStep ("Deploy failed: ".toList) (ext 0)
  else if step.step_type = ("validate".toList) then
    match validateLoop env.check_env step.allow_failures (step.retry.getD 1) step.checks [] with
    | Except.ok _ => Except.ok ()
    | Except.error e => Except.error e
  else if step.step_type = ("stop_cluster".toList) then
    runSimpleCliStep ("Stop cluster failed: ".toList) (ext 0)
  else if step.step_type = ("start_cluster".toList) then
    runSimpleCliStep ("Start cluster failed: ".toList) (ext 0)
  else if step.step_type = ("restart_node".toList) then
    restartNodeBody env ext step
  else if step.step_type = ("custom_command".toList) then
    customCommandBody env ext step
  else if step.step_type = ("destroy".toList) then
    runSimpleCliStep ("Destroy failed: ".toList) (ext 0)
  else
    Except.error (("Unknown step type: ".toList) ++ step.step_type)

/-- `WorkflowExecutor._execute_step` (workflow_engine.py:584-620): the step
runs under `try`; success gives `COMPLETED`, any exception is caught and gives
`FAILED` with `step.error = str(e)`.  No exception escapes to the caller. -/
def executeStep (env : ExecEnv) (ext : Nat → ExtResult) (step : WorkflowStep) : StepOutcome :=
  match stepBody env ext step with
  | Except.ok _ => ⟨step.step_type, StepStatus.completed, none⟩
  | Except.error e => ⟨step.step_type, StepStatus.failed, some e⟩

/-- The loop of `WorkflowExecutor.execute_workflow` (workflow_engine.py:547-565):
execute steps in order, append each result, and stop as soon as a step result
is `FAILED`.  `exts i` is the external-invocation oracle of the i-th step. -/
def executeWorkflowAux (env : ExecEnv) (exts : Nat → Nat → ExtResult) :
    Nat → List WorkflowStep → List StepOutcome
  | _, [] => []
  | i, step :: rest =>
    let out := executeStep env (exts i) step
    if out.status = StepStatus.failed then [out]
    else out :: executeWorkflowAux env exts (i + 1) rest

/-- `WorkflowExecutor.execute_workflow`, starting at the first step. -/
def executeWorkflow (env : ExecEnv) (exts : Nat → Nat → ExtResult)
    (workflow : List WorkflowStep) : List StepOutcome :=
  executeWorkflowAux env exts 0 workflow

/-- The eight step kinds `_execute_step` dispatches on. -/
def isKnownStepType (t : Chars) : Bool :=
  t = ("init".toList) || t = ("deploy".toList) || t = ("validate".toList) ||
  t = ("stop_cluster".toList) || t = ("start_cluster".toList) ||
  t = ("restart_node".toList) || t = ("custom_command".toList) || t = ("destroy".toList)

/-- One entry of the test plan as the scheduler and the quota monitor see it:
the `parameters` map's resource-relevant scalars (`test['parameters'].get(…)`;
a missing key is `none`).  `id` distinguishes plan entries. -/
structure PlanEntry where
  id : Nat
  cluster_size : Option Nat
  data_volumes_per_node : Option Nat
  data_volume_size : Option Nat
deriving DecidableEq

/-- The cluster size the scheduler uses:
`test['parameters'].get('cluster_size', 1)` (e2e_framework.py:907,914). -/
def clusterSizeOf (t : PlanEntry) : Nat := t.cluster_size.getD 1

/-- Sum of scheduler cluster sizes over a list of tests. -/
def sumSizes (l : List PlanEntry) : Nat := (l.map clusterSizeOf).sum

/-- Stable descending insertion used to model Python's stable
`pending_tests.sort(key=lambda t: …cluster_size…, reverse=True)`
(e2e_framework.py:907): a later element is inserted after every already-placed
element of greater-or-equal size. -/
def insertBySizeDesc (t : PlanEntry) : List PlanEntry → List PlanEntry
  | [] => [t]
  | x :: xs =>
    if clusterSizeOf x < clusterSizeOf t then t :: x :: xs
    else x :: insertBySizeDesc t xs

/-- The one-time descending sort of the pending queue. -/
def sortByClusterSizeDesc (l : List PlanEntry) : List PlanEntry :=
  l.foldl (fun acc t => insertBySizeDesc t acc) []

/-- Externally visible scheduler events: a test is started while
`nodes_in_use` nodes are reserved (after its own reservation), or a test
finishes and its nodes are released (count after the release). -/
inductive SchedEvent
  | started (t : PlanEntry) (nodes_in_use : Nat)
  | finished (t : PlanEntry) (nodes_in_use : Nat)
deriving DecidableEq

/-- The nodes-in-use counter an event records. -/
def eventNodes : SchedEvent → Nat
  | SchedEvent.started _ n => n
  | SchedEvent.finished _ n => n

/-- State of the admission phase: remaining pending queue, running tests,
nodes in use, events so far. -/
structure AdmitResult where
  pending : List PlanEntry
  running : List PlanEntry
  nodes_in_use : Nat
  events : List SchedEvent
deriving DecidableEq

/-- The inner admission loop of `_run_tests_with_resource_scheduling`
(e2e_framework.py:912-928): inspect only the head of the pending queue; while
it fits (`nodes_in_use + cluster_size <= max_nodes`) dequeue it, reserve its
nodes and submit it; the first head that does not fit stops admission even if
a smaller test waits behind it. -/
def admitLoop (max_nodes : Nat) : List PlanEntry → List PlanEntry → Nat → List SchedEvent →
    AdmitResult
  | [], running, used, events => ⟨[], running, used, events⟩
  | t :: rest, running, used, events =>
    if used + clusterSizeOf t ≤ max_nodes then
      admitLoop max_nodes rest (running ++ [t]) (used + clusterSizeOf t)
        (events ++ [SchedEvent.started t (used + clusterSizeOf t)])
    else ⟨t :: rest, running, used, events⟩

/-- The outer loop of `_run_tests_with_resource_scheduling`
(e2e_framework.py:910-986): admit as much as possible; if nothing is running,
stop (`if not running_futures: break` — note this drops a non-empty pending
queue whose head can never fit); otherwise wait for a completion, release the
finished test's nodes and record its result, then resume admission.  The wait
is modelled as returning one completed test per round, selected by `choose`
(completion order is external).  `fuel` bounds the rounds; one test finishes
per round, so `plan.length + 1` rounds always suffice. -/
def schedLoop (max_nodes : Nat) (choose : List PlanEntry → Nat) :
    Nat → List PlanEntry → List PlanEntry → Nat → List PlanEntry → List SchedEvent →
    List PlanEntry × List SchedEvent
  | 0, _, _, _, results, events => (results, events)
  | fuel + 1, pending, running, used, results, events =>
    let a := admitLoop max_nodes pending running used events
    if a.running = [] then (results, a.events)
    else
      let i := choose a.running % a.running.length
      let t := a.running.getD i ⟨0, none, none, none⟩
      schedLoop max_nodes choose fuel a.pending (a.running.eraseIdx i)
        (a.nodes_in_use - clusterSizeOf t) (results ++ [t])
        (a.events ++ [SchedEvent.finished t (a.nodes_in_use - clusterSizeOf t)])

/-- `E2ETestFramework._run_tests_with_resource_scheduling`: sort the plan by
cluster size descending once, then run the admission/completion loop starting
with nothing running and zero nodes in use. -/
def runScheduler (max_nodes : Nat) (choose : List PlanEntry → Nat) (plan : List PlanEntry) :
    List PlanEntry × List SchedEvent :=
  schedLoop max_nodes choose (plan.length + 1) (sortByClusterSizeDesc plan) [] 0 [] []

/-- The configurable limits of `ResourceQuotaMonitor.DEFAULT_LIMITS`
(e2e_framework.py:123-132) that `evaluate_plan` reads. -/
structure QuotaLimits where
  max_cluster_size_per_test : Nat
  max_total_instances : Nat
  max_total_data_volume_gb : Nat
  max_parallel_executions : Nat
  default_cluster_size : Nat
  default_data_volumes_per_node : Nat
  default_data_volume_size : Nat
deriving DecidableEq

/-- The default limits of `ResourceQuotaMonitor.DEFAULT_LIMITS`. -/
def defaultQuotaLimits : QuotaLimits := ⟨8, 32, 20000, 6, 1, 1, 100⟩

/-- The metrics dict that `evaluate_plan` returns on success. -/
structure QuotaMetrics where
  total_tests : Nat
  total_instances : Nat
  max_cluster_size : Nat
  total_data_volume_gb : Nat
  max_parallel_requested : Nat
deriving DecidableEq

/-- The `_assert_limit` helper (e2e_framework.py:182-185):
`ValueError(f"{label} {actual} exceeds limit {limit}")` when over. -/
def assertLimit (actual limit : Nat) (label : Chars) : Except Chars Unit :=
  if limit < actual then
    Except.error (label ++ (" ".toList) ++ natToChars actual ++
      (" exceeds limit ".toList) ++ natToChars limit)
  else Except.ok ()

/-- The accumulation loop of `ResourceQuotaMonitor.evaluate_plan`
(e2e_framework.py:149-161): per test, read the parameters with the configured
defaults, add to the totals, then raise if the test's cluster size exceeds
the per-test cap. -/
def evaluatePlanLoop (limits : QuotaLimits) :
    List PlanEntry → Nat → Nat → Nat → Except Chars (Nat × Nat × Nat)
  | [], ti, mc, dv => Except.ok (ti, mc, dv)
  | t :: rest, ti, mc, dv =>
    let cs := t.cluster_size.getD limits.default_cluster_size
    let dvp := t.data_volumes_per_node.getD limits.default_data_volumes_per_node
    let dvs := t.data_volume_size.getD limits.default_data_volume_size
    let ti2 := ti + cs
    let mc2 := max mc cs
    let dv2 := dv + cs * dvp * dvs
    if limits.max_cluster_size_per_test < cs then
      Except.error (("cluster_size ".toList) ++ natToChars cs ++
        (" exceeds max per test (".toList) ++ natToChars limits.max_cluster_size_per_test ++
        (")".toList))
    else evaluatePlanLoop limits rest ti2 mc2 dv2

/-- `ResourceQuotaMonitor.evaluate_plan` (e2e_framework.py:140-178): accumulate
the plan metrics (raising per-test cap violations along the way), then check
the summed total-instance cap, the summed data-volume cap and the requested
parallelism cap, in that order.  `max_parallel_requested` is
`max_parallel or len(test_plan)` (Python falsy 0). -/
def evaluatePlan (limits : QuotaLimits) (plan : List PlanEntry) (max_parallel : Nat) :
    Except Chars QuotaMetrics :=
  let mpr := if max_parallel = 0 then plan.length else max_parallel
  match evaluatePlanLoop limits plan 0 0 0 with
  | Except.error e => Except.error e
  | Except.ok (ti, mc, dv) =>
    match assertLimit ti limits.max_total_instances ("total instances".toList) with
    | Except.error e => Except.error e
    | Except.ok _ =>
      match assertLimit dv limits.max_total_data_volume_gb ("total data volume (GB)".toList) with
      | Except.error e => Except.error e
      | Except.ok _ =>
        if limits.max_parallel_executions < mpr then
          Except.error (("max_parallel ".toList) ++ natToChars mpr ++
            (" exceeds limit (".toList) ++ natToChars limits.max_parallel_executions ++
            (")".toList))
        else Except.ok ⟨plan.length, ti, mc, dv, mpr⟩

/-- The resource-aware configuration of `E2ETestFramework.run_tests`
(e2e_framework.py:780-843) with `max_parallel = 0` and
`max_concurrent_nodes = max_nodes > 0`: `effective_parallel` is the whole plan
length, the quota monitor validates the plan first and its `ValueError` aborts
the run (re-raised at e2e_framework.py:819-823) before any scheduling, and
only then does `_run_tests_with_resource_scheduling` run. -/
def runTestsResourceAware (limits : QuotaLimits) (max_nodes : Nat)
    (choose : List PlanEntry → Nat) (plan : List PlanEntry) :
    Except Chars (List PlanEntry) :=
  match evaluatePlan limits plan plan.length with
  | Except.error e => Except.error e
  | Except.ok _ => Except.ok (runScheduler max_nodes choose plan).1

/-- Scheduler state for the interleaving model: pending queue, concurrently
running tests, the shared `nodes_in_use` counter and the recorded results. -/
structure SchedState where
  pending : List PlanEntry
  running : List PlanEntry
  nodes_in_use : Nat
  results : List PlanEntry
deriving DecidableEq

/-- Atomic transitions of `_run_tests_with_resource_scheduling`
(e2e_framework.py:910-986), at the granularity at which the `nodes_in_use`
counter changes.  `admitHead` is one iteration of the inner admission loop:
only the head of the pending queue can be admitted, only when it fits, and the
counter grows by exactly its cluster size.  `finish` is the processing of one
completed future: the counter shrinks by exactly the finished test's cluster
size and its result is recorded.  Completions may be processed at any point
(a superset of the code's schedules, which only wait when the head does not
fit), so an invariant over all reachable states covers every code trace. -/
inductive SchedTrans (max_nodes : Nat) : SchedState → SchedState → Prop
  | admitHead (t : PlanEntry) (rest running : List PlanEntry) (used : Nat)
      (results : List PlanEntry)
      (hfit : used + clusterSizeOf t ≤ max_nodes) :
      SchedTrans max_nodes ⟨t :: rest, running, used, results⟩
        ⟨rest, running ++ [t], used + clusterSizeOf t, results⟩
  | finish (pending l1 l2 : List PlanEntry) (t : PlanEntry) (used : Nat)
      (results : List PlanEntry) :
      SchedTrans max_nodes ⟨pending, l1 ++ t :: l2, used, results⟩
        ⟨pending, l1 ++ l2, used - clusterSizeOf t, results ++ [t]⟩

/-- The scheduler's initial state for a plan: the descending-sorted pending
queue, nothing running, zero nodes in use. -/
def initSchedState (plan : List PlanEntry) : SchedState :=
  ⟨sortByClusterSizeDesc plan, [], 0, []⟩

/-- States the scheduler can reach from the initial state of a plan. -/
def SchedReachable (max_nodes : Nat) (plan : List PlanEntry) (s : SchedState) : Prop :=
  Relation.ReflTransGen (SchedTrans max_nodes) (initSchedState plan) s

/-- Specification-side predicate for the amended validate law: the recorded
`passed` flag a check would get (the result of the retry loop on its
evaluation; `true` for names that resolve to no check, which are skipped). -/
def checkRecordedPassed (env : CheckEnv) (max_attempts : Nat) (name : Chars) : Bool :=
  match getCheck name with
  | CheckResolution.cluster op expected =>
    (retryEval (evalClusterCheck env op expected) max_attempts 0).1
  | CheckResolution.health _ component op v =>
    (retryEval (evalHealthCheck env component op v) max_attempts 0).1
  | _ => true

/-- Specification-side predicate: resolving this check name raises a
`ValueError` in `get_check` (a health_status parse failure). -/
def checkParseRaises (name : Chars) : Bool :=
  match getCheck name with
  | CheckResolution.invalid _ => true
  | _ => false

/-- Specification-side predicate: this check name resolves to a dynamic
check (rather than being unknown or raising). -/
def checkResolves (name : Chars) : Bool :=
  match getCheck name with
  | CheckResolution.cluster _ _ => true
  | CheckResolution.health _ _ _ _ => true
  | _ => false

/-- Whether an `Except` result is a success. -/
def exceptOk {ε α : Type} : Except ε α → Bool
  | Except.ok _ => true
  | Except.error _ => false

/-- Fixture: observable state with cluster status `stopped` and a healthy
2-node ssh fleet. -/
def exampleCheckEnv : CheckEnv :=
  ⟨("stopped".toList), fun c => if c = ("ssh".toList) then some ⟨2, 0⟩ else none⟩

/-- Fixture: health payload with `passed = 0, failed = 0` for ssh (the shape
the code itself produces for an unavailable deployment). -/
def zeroCountsCheckEnv : CheckEnv :=
  ⟨[], fun c => if c = ("ssh".toList) then some ⟨0, 0⟩ else none⟩

/-- Fixture: health payload with `passed = 1, failed = 0` for ssh. -/
def healthyCheckEnv : CheckEnv :=
  ⟨[], fun c => if c = ("ssh".toList) then some ⟨1, 0⟩ else none⟩

/-- Fixture: a complete per-test environment with an inventory resolving node
`n11`. -/
def exampleExecEnv : ExecEnv :=
  ⟨exampleCheckEnv,
   some [("[exasol_nodes]".toList), ("n11 ansible_host=10.0.0.1".toList)],
   ("/tmp/deploy".toList), ("aws".toList)⟩

/-- Fixture: every external invocation succeeds with exit status 0. -/
def extAllOk : Nat → ExtResult := fun _ => ExtResult.completedRun 0 [] []

/-- Fixture: every step's every external invocation succeeds. -/
def extsAllOk : Nat → Nat → ExtResult := fun _ _ => ExtResult.completedRun 0 [] []

/-- Fixture: every external invocation exits 255 with stderr `boom`. -/
def extFail255 : Nat → ExtResult := fun _ => ExtResult.completedRun 255 [] ("boom".toList)

/-- A bare step of the given kind with no parameters. -/
def mkBareStep (t : Chars) : WorkflowStep := ⟨t, none, none, none, [], [], none⟩

/-- A validate step over the given checks and allow-failure list. -/
def mkValidateStep (checks allow : List Chars) : WorkflowStep :=
  ⟨("validate".toList), none, none, none, checks, allow, none⟩

/-- Fixture: a validate step whose single check is a malformed health check
(unknown component), not allowed to fail. -/
def bogusHealthStep : WorkflowStep :=
  mkValidateStep [("health_status[*].bogus==ok".toList)] []

/-- Fixture: the same malformed health check, listed in its own allow-failure
set. -/
def bogusHealthAllowedStep : WorkflowStep :=
  mkValidateStep [("health_status[*].bogus==ok".toList)] [("health_status[*].bogus==ok".toList)]

/-- Fixture: a validate step whose checks match neither DSL grammar and do not
start with `health_status[` (a registry miss, skipped). -/
def unknownChecksStep : WorkflowStep :=
  mkValidateStep [("no_such_check".toList), ("health_status.ssh==ok".toList)] []

/-- Fixture: a well-formed cluster-status check that evaluates to false
against `exampleCheckEnv` (status is `stopped`), not allowed to fail. -/
def falseAssertionStep : WorkflowStep :=
  mkValidateStep [("cluster_status==database_ready".toList)] []

/-- Fixture: a restart_node step targeting `n11` over ssh. -/
def restartN11Step : WorkflowStep :=
  ⟨("restart_node".toList), some ("n11".toList), some ("ssh".toList), none, [], [], none⟩

/-- Fixture: a custom_command step with an inline command and no retry. -/
def customEchoStep : WorkflowStep :=
  ⟨("custom_command".toList), none, none, some ("echo hi".toList), [], [], none⟩

/-- Fixture workflow for the fail-fast scenario:
`[init, deploy, validate(fails, not allowed), destroy]`. -/
def failFastWorkflow : List WorkflowStep :=
  [mkBareStep ("init".toList), mkBareStep ("deploy".toList), falseAssertionStep,
   mkBareStep ("destroy".toList)]

/-- Fixture plan entries with cluster sizes 4, 3, 1, 1. -/
def planSize4 : PlanEntry := ⟨0, some 4, none, none⟩

/-- Fixture plan entry of cluster size 3. -/
def planSize3 : PlanEntry := ⟨1, some 3, none, none⟩

/-- Fixture plan entry of cluster size 1. -/
def planSize1a : PlanEntry := ⟨2, some 1, none, none⟩

/-- Fixture plan entry of cluster size 1 (second copy, distinct id). -/
def planSize1b : PlanEntry := ⟨3, some 1, none, none⟩

/-- The scenario plan `[4,3,1,1]` of the spec. -/
def scenarioPlan : List PlanEntry := [planSize4, planSize3, planSize1a, planSize1b]

/-- Quota limits of the C7 scenario: defaults with `max_total_instances = 2`. -/
def quotaLimitsTotal2 : QuotaLimits := ⟨8, 2, 20000, 6, 1, 1, 100⟩

theorem validate_success_iff_aux (env : CheckEnv) (allow : List Chars) (maxAtt : Nat) :
    ∀ (checks : List Chars) (acc : List CheckOutcome),
    exceptOk (validateLoop env allow maxAtt checks acc) = true ↔
      ((∀ name ∈ checks, checkParseRaises name = false) ∧
       (∀ name ∈ checks, checkResolves name = true →
         checkRecordedPassed env maxAtt name = true ∨ name ∈ allow)) := by
  intro checks
  induction checks with
  | nil => intro acc; simp [validateLoop, exceptOk]
  | cons name rest ih =>
    intro acc
    cases hg : getCheck name with
    | unknown =>
      have hl : validateLoop env allow maxAtt (name :: rest) acc
          = validateLoop env allow maxAtt rest acc := by
        simp [validateLoop, hg]
      rw [hl, ih acc]
      simp [List.forall_mem_cons, checkParseRaises, checkResolves, hg]
    | invalid msg =>
      have hl : validateLoop env allow maxAtt (name :: rest) acc = Except.error msg := by
        simp [validateLoop, hg]
      rw [hl]
      simp [exceptOk, List.forall_mem_cons, checkParseRaises, hg]
    | cluster op expected =>
      have hrp : checkRecordedPassed env maxAtt name
          = (retryEval (evalClusterCheck env op expected) maxAtt 0).1 := by
        simp [checkRecordedPassed, hg]
      by_cases hc : (retryEval (evalClusterCheck env op expected) maxAtt 0).1 = false ∧
          name ∉ allow
      · have hl : validateLoop env allow maxAtt (name :: rest) acc
            = Except.error (("Validation check failed: ".toList) ++ name) := by
          simp only [validateLoop, hg]
          rw [if_pos hc]
        rw [hl]
        simp only [exceptOk]
        constructor
        · intro h; exact absurd h (by decide)
        · rintro ⟨-, h2⟩
          rcases h2 name (List.mem_cons_self name rest) (by simp [checkResolves, hg]) with
            hp | hmem
          · rw [hrp, hc.1] at hp
            exact absurd hp (by decide)
          · exact absurd hmem hc.2
      · have hl : validateLoop env allow maxAtt (name :: rest) acc
            = validateLoop env allow maxAtt rest
              (acc ++ [⟨name, (retryEval (evalClusterCheck env op expected) maxAtt 0).1,
                (retryEval (evalClusterCheck env op expected) maxAtt 0).2,
                decide (name ∈ allow)⟩]) := by
          simp only [validateLoop, hg]
          rw [if_neg hc]
        rw [hl, ih]
        have hpr : checkParseRaises name = false := by simp [checkParseRaises, hg]
        have hcr : checkResolves name = true := by simp [checkResolves, hg]
        have hname : checkRecordedPassed env maxAtt name = true ∨ name ∈ allow := by
          rw [hrp]
          by_cases hm : name ∈ allow
          · exact Or.inr hm
          · cases hb : (retryEval (evalClusterCheck env op expected) maxAtt 0).1 with
            | false => exact absurd ⟨hb, hm⟩ hc
            | true => exact Or.inl rfl
        simp only [List.forall_mem_cons]
        constructor
        · rintro ⟨ha, hb⟩
          exact ⟨⟨hpr, ha⟩, ⟨fun _ => hname, hb⟩⟩
        · rintro ⟨⟨-, ha⟩, ⟨-, hb⟩⟩
          exact ⟨ha, hb⟩
    | health sel comp op v =>
      have hrp : checkRecordedPassed env maxAtt name
          = (retryEval (evalHealthCheck env comp op v) maxAtt 0).1 := by
        simp [checkRecordedPassed, hg]
      by_cases hc : (retryEval (evalHealthCheck env comp op v) maxAtt 0).1 = false ∧
          name ∉ allow
      · have hl : validateLoop env allow maxAtt (name :: rest) acc
            = Except.error (("Validation check failed: ".toList) ++ name) := by
          simp only [validateLoop, hg]
          rw [if_pos hc]
        rw [hl]
        simp only [exceptOk]
        constructor
        · intro h; exact absurd h (by decide)
        · rintro ⟨-, h2⟩
          rcases h2 name (List.mem_cons_self name rest) (by simp [checkResolves, hg]) with
            hp | hmem
          · rw [hrp, hc.1] at hp
            exact absurd hp (by decide)
          · exact absurd hmem hc.2
      · have hl : validateLoop env allow maxAtt (name :: rest) acc
            = validateLoop env allow maxAtt rest
              (acc ++ [⟨name, (retryEval (evalHealthCheck env comp op v) maxAtt 0).1,
                (retryEval (evalHealthCheck env comp op v) maxAtt 0).2,
                decide (name ∈ allow)⟩]) := by
          simp only [validateLoop, hg]
          rw [if_neg hc]
        rw [hl, ih]
        have hpr : checkParseRaises name = false := by simp [checkParseRaises, hg]
        have hcr : checkResolves name = true := by simp [checkResolves, hg]
        have hname : checkRecordedPassed env maxAtt name = true ∨ name ∈ allow := by
          rw [hrp]
          by_cases hm : name ∈ allow
          · exact Or.inr hm
          · cases hb : (retryEval (evalHealthCheck env comp op v) maxAtt 0).1 with
            | false => exact absurd ⟨hb, hm⟩ hc
            | true => exact Or.inl rfl
        simp only [List.forall_mem_cons]
        constructor
        · rintro ⟨ha, hb⟩
          exact ⟨⟨hpr, ha⟩, ⟨fun _ => hname, hb⟩⟩
        · rintro ⟨⟨-, ha⟩, ⟨-, hb⟩⟩
          exact ⟨ha, hb⟩

theorem validateStep_status (env : ExecEnv) (ext : Nat → ExtResult) (step : WorkflowStep)
    (hty : step.step_type = ("validate".toList)) :
    (executeStep env ext step).status = StepStatus.completed ↔
      exceptOk (validateLoop env.check_env step.allow_failures (step.retry.getD 1)
        step.checks []) = true := by
  have hbody : stepBody env ext step =
      (match validateLoop env.check_env step.allow_failures (step.retry.getD 1)
          step.checks [] with
       | Except.ok _ => Except.ok ()
       | Except.error e => Except.error e) := by
    simp only [stepBody]
    rw [hty]
    rw [if_neg (by decide), if_neg (by decide), if_pos rfl]
  cases hv : validateLoop env.check_env step.allow_failures (step.retry.getD 1)
      step.checks [] with
  | ok l => simp [executeStep, hbody, hv, exceptOk]
  | error e => simp [executeStep, hbody, hv, exceptOk]

theorem executeWorkflowAux_length_le (env : ExecEnv) (exts : Nat → Nat → ExtResult) :
    ∀ (wf : List WorkflowStep) (i : Nat),
      (executeWorkflowAux env exts i wf).length ≤ wf.length := by
  intro wf
  induction wf with
  | nil => intro i; simp [executeWorkflowAux]
  | cons s rest ih =>
    intro i
    simp only [executeWorkflowAux]
    by_cases h : (executeStep env (exts i) s).status = StepStatus.failed
    · rw [if_pos h]; simp
    · rw [if_neg h]
      simpa using Nat.succ_le_succ (ih (i + 1))

theorem executeWorkflowAux_dropLast_ne_failed (env : ExecEnv) (exts : Nat → Nat → ExtResult) :
    ∀ (wf : List WorkflowStep) (i : Nat) (r : StepOutcome),
      r ∈ (executeWorkflowAux env exts i wf).dropLast → r.status ≠ StepStatus.failed := by
  intro wf
  induction wf with
  | nil => intro i r hr; simp [executeWorkflowAux] at hr
  | cons s rest ih =>
    intro i r hr
    simp only [executeWorkflowAux] at hr
    by_cases h : (executeStep env (exts i) s).status = StepStatus.failed
    · rw [if_pos h] at hr
      simp at hr
    · rw [if_neg h] at hr
      rcases haux : executeWorkflowAux env exts (i + 1) rest with _ | ⟨b, l⟩
      · rw [haux] at hr
        simp at hr
      · rw [haux] at hr
        have hdl : (executeStep env (exts i) s :: b :: l).dropLast
            = executeStep env (exts i) s :: (b :: l).dropLast := rfl
        rw [hdl] at hr
        rcases List.mem_cons.mp hr with h1 | h2
        · rw [h1]; exact h
        · exact ih (i + 1) r (by rw [haux]; exact h2)

theorem executeStep_unknown_eq (env : ExecEnv) (ext : Nat → ExtResult) (step : WorkflowStep)
    (h : isKnownStepType step.step_type = false) :
    executeStep env ext step =
      ⟨step.step_type, StepStatus.failed,
       some (("Unknown step type: ".toList) ++ step.step_type)⟩ := by
  simp only [isKnownStepType, Bool.or_eq_false_iff, decide_eq_false_iff_not] at h
  obtain ⟨⟨⟨⟨⟨⟨⟨h1, h2⟩, h3⟩, h4⟩, h5⟩, h6⟩, h7⟩, h8⟩ := h
  simp only [executeStep, stepBody, if_neg h1, if_neg h2, if_neg h3, if_neg h4, if_neg h5,
    if_neg h6, if_neg h7, if_neg h8]

theorem executeWorkflowAux_unknown_halts (env : ExecEnv) (exts : Nat → Nat → ExtResult)
    (step : WorkflowStep) (hstep : isKnownStepType step.step_type = false) :
    ∀ (pre : List WorkflowStep) (i : Nat) (post : List WorkflowStep),
      (executeWorkflowAux env exts i (pre ++ step :: post)).length ≤ pre.length + 1 := by
  intro pre
  induction pre with
  | nil =>
    intro i post
    simp only [List.nil_append, executeWorkflowAux]
    rw [executeStep_unknown_eq env (exts i) step hstep]
    rw [if_pos rfl]
    simp
  | cons s pre2 ih =>
    intro i post
    simp only [List.cons_append, executeWorkflowAux]
    by_cases h : (executeStep env (exts i) s).status = StepStatus.failed
    · rw [if_pos h]
      simp
    · rw [if_neg h]
      simpa using Nat.succ_le_succ (ih (i + 1) post)

/-- C3 (amended): for every validate step, the step completes as `Completed`
iff no check of the step raises a health_status parse error in `get_check` and
every check that resolves to a dynamic check either passed (after its retry
loop) or is listed in the step's allow-failure set; check names that resolve
to no known check are skipped and do not affect the outcome.  (The original
claim, quantified over all listed checks, fails because a malformed
`health_status[…]` check fails the step even when it is in the allow-failure
set — see the counterexample.) -/
theorem validate_step_success_iff (env : ExecEnv) (ext : Nat → ExtResult)
    (step : WorkflowStep) (hty : step.step_type = ("validate".toList)) :
    (executeStep env ext step).status = StepStatus.completed ↔
      ((∀ name ∈ step.checks, checkParseRaises name = false) ∧
       (∀ name ∈ step.checks, checkResolves name = true →
         checkRecordedPassed env.check_env (step.retry.getD 1) name = true ∨
           name ∈ step.allow_failures)) :=
  (validateStep_status env ext step hty).trans
    (validate_success_iff_aux env.check_env step.allow_failures (step.retry.getD 1)
      step.checks [])

/-- C3 witness: instantiating the law at a concrete validate step whose checks
all resolve to nothing (so the step completes). -/
theorem validate_step_success_iff_witness :
    unknownChecksStep.step_type = ("validate".toList) ∧
    ((executeStep exampleExecEnv extAllOk unknownChecksStep).status = StepStatus.completed ↔
      ((∀ name ∈ unknownChecksStep.checks, checkParseRaises name = false) ∧
       (∀ name ∈ unknownChecksStep.checks, checkResolves name = true →
         checkRecordedPassed exampleExecEnv.check_env (unknownChecksStep.retry.getD 1) name
             = true ∨
           name ∈ unknownChecksStep.allow_failures))) :=
  ⟨rfl, validate_step_success_iff exampleExecEnv extAllOk unknownChecksStep rfl⟩

/-- C3 counterexample: a validate step whose single check is listed in its own
allow-failure set (so every listed check is allowed to fail) nevertheless ends
`Failed`, because the malformed health check raises in `get_check` before the
allow-failure set is consulted.  Under the claim the step should succeed. -/
theorem validate_step_allowed_failure_counterexample :
    (executeStep exampleExecEnv extAllOk bogusHealthAllowedStep).status = StepStatus.failed ∧
    bogusHealthAllowedStep.allow_failures = bogusHealthAllowedStep.checks := by decide

/-- C4 (amended): a check string that matches neither DSL grammar and does not
begin with `health_status[` resolves to no check and is skipped without
affecting the enclosing validate step (first two conjuncts); but a string
beginning with `health_status[` that fails to parse or names an unknown
component raises a `ValueError` that fails the enclosing step (third
conjunct); a false assertion that is not allowed to fail also fails the step
(fourth conjunct). -/
theorem parse_failure_handling :
    (∀ (env : CheckEnv) (allow : List Chars) (maxAtt : Nat) (name : Chars)
        (rest : List Chars) (acc : List CheckOutcome),
      getCheck name = CheckResolution.unknown →
      validateLoop env allow maxAtt (name :: rest) acc
        = validateLoop env allow maxAtt rest acc) ∧
    executeStep exampleExecEnv extAllOk unknownChecksStep =
      ⟨("validate".toList), StepStatus.completed, none⟩ ∧
    executeStep exampleExecEnv extAllOk bogusHealthStep =
      ⟨("validate".toList), StepStatus.failed,
       some ("Unknown health check component: bogus. Valid: adminui, cos_ssh, database, ssh".toList)⟩ ∧
    executeStep exampleExecEnv extAllOk falseAssertionStep =
      ⟨("validate".toList), StepStatus.failed,
       some ("Validation check failed: cluster_status==database_ready".toList)⟩ :=
  ⟨fun env allow maxAtt name rest acc h => by simp [validateLoop, h],
   by decide, by decide, by decide⟩

/-- C4 witness: the skip rule applied to a concrete unresolvable check. -/
theorem parse_failure_handling_witness :
    getCheck ("no_such_check".toList) = CheckResolution.unknown ∧
    validateLoop exampleCheckEnv [] 1 [("no_such_check".toList)] []
      = validateLoop exampleCheckEnv [] 1 [] [] :=
  ⟨by decide, parse_failure_handling.1 exampleCheckEnv [] 1 ("no_such_check".toList) [] []
    (by decide)⟩

/-- C4 counterexample: a validate step whose single check is a parse failure
(`health_status[*].bogus==ok`, unknown component) ends `Failed` — the claim
says a parse failure is skipped without failing the enclosing step. -/
theorem parse_failure_fails_step_counterexample :
    (executeStep exampleExecEnv extAllOk bogusHealthStep).status = StepStatus.failed ∧
    checkParseRaises ("health_status[*].bogus==ok".toList) = true := by decide

/-- C5 (amended): for a health payload carrying counts `(passed, failed)` for
a component, `==ok` and `!=failed` are true iff `failed = 0 ∧ passed > 0`, and
`==failed` is true iff `failed > 0`; but `!=ok` is true iff
`failed > 0 ∨ passed = 0` (not iff `failed > 0` as claimed — see the
counterexample with `passed = failed = 0`).  The last conjunct ties the
`health_status[*].ssh==ok` concrete syntax to this evaluation. -/
theorem health_check_laws (env : CheckEnv) (comp : Chars) (p f : Nat)
    (h : env.health_checks comp = some ⟨p, f⟩) :
    (evalHealthCheck env comp CmpOp.ceq ("ok".toList) = true ↔ f = 0 ∧ 0 < p) ∧
    (evalHealthCheck env comp CmpOp.cne ("failed".toList) = true ↔ f = 0 ∧ 0 < p) ∧
    (evalHealthCheck env comp CmpOp.ceq ("failed".toList) = true ↔ 0 < f) ∧
    (evalHealthCheck env comp CmpOp.cne ("ok".toList) = true ↔ (0 < f ∨ p = 0)) ∧
    getCheck ("health_status[*].ssh==ok".toList) =
      CheckResolution.health ("*".toList) ("ssh".toList) CmpOp.ceq ("ok".toList) := by
  refine ⟨?_, ?_, ?_, ?_, by decide⟩
  · simp only [evalHealthCheck, h, if_pos (by decide : decide (lowerChars (mappedExpected ("ok".toList)) = ("true".toList)) = true)]
    simp
  · simp only [evalHealthCheck, h, if_neg (by decide : ¬ decide (lowerChars (mappedExpected ("failed".toList)) = ("true".toList)) = true)]
    simp
  · simp only [evalHealthCheck, h, if_neg (by decide : ¬ decide (lowerChars (mappedExpected ("failed".toList)) = ("true".toList)) = true)]
    simp
  · simp only [evalHealthCheck, h, if_pos (by decide : decide (lowerChars (mappedExpected ("ok".toList)) = ("true".toList)) = true)]
    simp

/-- C5 witness: the `==ok` law at a healthy concrete payload (passed 1,
failed 0). -/
theorem health_check_laws_witness :
    healthyCheckEnv.health_checks ("ssh".toList) = some ⟨1, 0⟩ ∧
    (evalHealthCheck healthyCheckEnv ("ssh".toList) CmpOp.ceq ("ok".toList) = true ↔
      (0 = 0 ∧ 0 < 1)) :=
  ⟨rfl, (health_check_laws healthyCheckEnv ("ssh".toList) 1 0 rfl).1⟩

/-- C5 counterexample: with `passed = 0, failed = 0` (the payload the code
itself fabricates for an unavailable deployment), `health_status[*].ssh!=ok`
evaluates to true although `failed > 0` is false, refuting the claimed
equivalence `!=ok ⇔ failed > 0`. -/
theorem health_neq_ok_counterexample :
    ¬ ((evalHealthCheck zeroCountsCheckEnv ("ssh".toList) CmpOp.cne ("ok".toList) = true) ↔
      0 < (0 : Nat)) := by decide

/-- C6: for every workflow the number of produced step results never exceeds
the number of declared steps, every result other than the last is not
`Failed` (an allowed-to-fail validate outcome is `Completed`, so any `Failed`
result is the last one), and the scenario
`[init, deploy, validate(fails, not allowed), destroy]` with init and deploy
succeeding produces exactly the three results init=Completed,
deploy=Completed, validate=Failed — destroy is never attempted. -/
theorem workflow_results_bounded_and_fail_fast :
    (∀ (env : ExecEnv) (exts : Nat → Nat → ExtResult) (i : Nat) (wf : List WorkflowStep),
      (executeWorkflowAux env exts i wf).length ≤ wf.length) ∧
    (∀ (env : ExecEnv) (exts : Nat → Nat → ExtResult) (i : Nat) (wf : List WorkflowStep)
        (r : StepOutcome), r ∈ (executeWorkflowAux env exts i wf).dropLast →
      r.status ≠ StepStatus.failed) ∧
    executeWorkflow exampleExecEnv extsAllOk failFastWorkflow =
      [⟨("init".toList), StepStatus.completed, none⟩,
       ⟨("deploy".toList), StepStatus.completed, none⟩,
       ⟨("validate".toList), StepStatus.failed,
        some ("Validation check failed: cluster_status==database_ready".toList)⟩] :=
  ⟨fun env exts i wf => executeWorkflowAux_length_le env exts wf i,
   fun env exts i wf r h => executeWorkflowAux_dropLast_ne_failed env exts wf i r h,
   by decide⟩

/-- C6 witness: the not-failed-before-last property applied to the first
result of the concrete fail-fast scenario. -/
theorem workflow_results_bounded_and_fail_fast_witness :
    ((⟨("init".toList), StepStatus.completed, none⟩ : StepOutcome) ∈
      (executeWorkflowAux exampleExecEnv extsAllOk 0 failFastWorkflow).dropLast) ∧
    (⟨("init".toList), StepStatus.completed, none⟩ : StepOutcome).status
      ≠ StepStatus.failed :=
  ⟨by decide,
   workflow_results_bounded_and_fail_fast.2.1 exampleExecEnv extsAllOk 0 failFastWorkflow
     ⟨("init".toList), StepStatus.completed, none⟩ (by decide)⟩

/-- C7: any quota breach raised by `evaluate_plan` aborts the resource-aware
run before any scheduling (first conjunct), and concretely, with
`max_total_instances = 2` (per-test cap 8 ≥ 3) and a one-test plan of
cluster_size 3, pre-flight validation raises
`total instances 3 exceeds limit 2` and the run returns that error with no
test scheduled. -/
theorem quota_breach_aborts :
    (∀ (limits : QuotaLimits) (max_nodes : Nat) (choose : List PlanEntry → Nat)
        (plan : List PlanEntry) (e : Chars),
      evaluatePlan limits plan plan.length = Except.error e →
      runTestsResourceAware limits max_nodes choose plan = Except.error e) ∧
    evaluatePlan quotaLimitsTotal2 [⟨0, some 3, none, none⟩] 1 =
      Except.error ("total instances 3 exceeds limit 2".toList) ∧
    runTestsResourceAware quotaLimitsTotal2 4 (fun _ => 0) [⟨0, some 3, none, none⟩] =
      Except.error ("total instances 3 exceeds limit 2".toList) :=
  ⟨fun limits max_nodes choose plan e h => by simp [runTestsResourceAware, h],
   by decide, by decide⟩

/-- C7 witness: the abort rule applied to the concrete breaching plan. -/
theorem quota_breach_aborts_witness :
    evaluatePlan quotaLimitsTotal2 [⟨0, some 3, none, none⟩]
        ([⟨0, some 3, none, none⟩] : List PlanEntry).length =
      Except.error ("total instances 3 exceeds limit 2".toList) ∧
    runTestsResourceAware quotaLimitsTotal2 4 (fun _ => 0) [⟨0, some 3, none, none⟩] =
      Except.error ("total instances 3 exceeds limit 2".toList) :=
  ⟨by decide,
   quota_breach_aborts.1 quotaLimitsTotal2 4 (fun _ => 0) [⟨0, some 3, none, none⟩]
     ("total instances 3 exceeds limit 2".toList) (by decide)⟩

/-- C9 (amended): for the step kinds that invoke one external process — init,
deploy, stop_cluster, start_cluster, destroy and custom_command — a non-zero
exit status produces a `Failed` step result carrying the captured stderr, and
a timeout produces a `Failed` result carrying the timeout message; a timeout
also fails restart_node, but restart_node's SSH reboot deliberately treats a
non-zero exit status as success (the connection is expected to drop during
reboot), contrary to the original uniform claim. -/
theorem external_failure_fails_step (env : ExecEnv) (rc : Nat) (sout serr cmd : Chars)
    (hrc : rc ≠ 0) :
    (executeStep env (fun _ => ExtResult.completedRun rc sout serr)
        (mkBareStep ("init".toList)) =
      ⟨("init".toList), StepStatus.failed, some (("Init failed: ".toList) ++ serr)⟩) ∧
    (executeStep env (fun _ => ExtResult.completedRun rc sout serr)
        (mkBareStep ("deploy".toList)) =
      ⟨("deploy".toList), StepStatus.failed, some (("Deploy failed: ".toList) ++ serr)⟩) ∧
    (executeStep env (fun _ => ExtResult.completedRun rc sout serr)
        (mkBareStep ("stop_cluster".toList)) =
      ⟨("stop_cluster".toList), StepStatus.failed,
       some (("Stop cluster failed: ".toList) ++ serr)⟩) ∧
    (executeStep env (fun _ => ExtResult.completedRun rc sout serr)
        (mkBareStep ("start_cluster".toList)) =
      ⟨("start_cluster".toList), StepStatus.failed,
       some (("Start cluster failed: ".toList) ++ serr)⟩) ∧
    (executeStep env (fun _ => ExtResult.completedRun rc sout serr)
        (mkBareStep ("destroy".toList)) =
      ⟨("destroy".toList), StepStatus.failed,
       some (("Destroy failed: ".toList) ++ serr)⟩) ∧
    (executeStep env (fun _ => ExtResult.completedRun rc sout serr)
        (⟨("custom_command".toList), none, none, some cmd, [], [], none⟩ : WorkflowStep) =
      ⟨("custom_command".toList), StepStatus.failed,
       some (("Custom command failed with exit code ".toList) ++ natToChars rc ++
         (": ".toList) ++ serr)⟩) ∧
    (executeStep env (fun _ => ExtResult.timedOut) (mkBareStep ("init".toList)) =
      ⟨("init".toList), StepStatus.failed, some timeoutMessage⟩) ∧
    (executeStep env (fun _ => ExtResult.timedOut) (mkBareStep ("deploy".toList)) =
      ⟨("deploy".toList), StepStatus.failed, some timeoutMessage⟩) ∧
    (executeStep env (fun _ => ExtResult.timedOut) (mkBareStep ("stop_cluster".toList)) =
      ⟨("stop_cluster".toList), StepStatus.failed, some timeoutMessage⟩) ∧
    (executeStep env (fun _ => ExtResult.timedOut) (mkBareStep ("start_cluster".toList)) =
      ⟨("start_cluster".toList), StepStatus.failed, some timeoutMessage⟩) ∧
    (executeStep env (fun _ => ExtResult.timedOut) (mkBareStep ("destroy".toList)) =
      ⟨("destroy".toList), StepStatus.failed, some timeoutMessage⟩) ∧
    (executeStep env (fun _ => ExtResult.timedOut)
        (⟨("custom_command".toList), none, none, some cmd, [], [], none⟩ : WorkflowStep) =
      ⟨("custom_command".toList), StepStatus.failed, some timeoutMessage⟩) ∧
    (executeStep exampleExecEnv (fun _ => ExtResult.timedOut) restartN11Step =
      ⟨("restart_node".toList), StepStatus.failed, some timeoutMessage⟩) ∧
    (executeStep exampleExecEnv (fun _ => ExtResult.completedRun rc sout serr)
        restartN11Step =
      ⟨("restart_node".toList), StepStatus.completed, none⟩) := by
  refine ⟨?_, ?_, ?_, ?_, ?_, ?_, by rfl, by rfl, by rfl, by rfl, by rfl, by rfl, by rfl,
    by rfl⟩
  · simp [executeStep, stepBody, runSimpleCliStep, mkBareStep, hrc]
  · simp [executeStep, stepBody, runSimpleCliStep, mkBareStep, hrc]
  · simp [executeStep, stepBody, runSimpleCliStep, mkBareStep, hrc]
  · simp [executeStep, stepBody, runSimpleCliStep, mkBareStep, hrc]
  · simp [executeStep, stepBody, runSimpleCliStep, mkBareStep, hrc]
  · simp [executeStep, stepBody, customCommandBody, runCustomAttempts, hrc]

/-- C9 witness: the init conjunct at a concrete non-zero exit status. -/
theorem external_failure_fails_step_witness :
    (255 ≠ 0) ∧
    executeStep exampleExecEnv (fun _ => ExtResult.completedRun 255 [] ("boom".toList))
        (mkBareStep ("init".toList)) =
      ⟨("init".toList), StepStatus.failed,
       some (("Init failed: ".toList) ++ ("boom".toList))⟩ :=
  ⟨by decide,
   (external_failure_fails_step exampleExecEnv 255 [] ("boom".toList) ("x".toList)
     (by decide)).1⟩

/-- C9 counterexample: restart_node's SSH reboot exits 255 yet the step result
is `Completed` with no error — the claim says a non-zero exit status produces
a `Failed` step result uniformly for every step kind. -/
theorem restart_node_nonzero_exit_counterexample :
    executeStep exampleExecEnv extFail255 restartN11Step =
      ⟨("restart_node".toList), StepStatus.completed, none⟩ := by decide

/-- C10: a workflow step whose kind is none of the eight known kinds yields a
`Failed` step result whose error names the unknown step type (the
`ValueError` is caught inside `_execute_step`, so no exception reaches the
caller), and the workflow produces no results for any step after it. -/
theorem unknown_step_type_fails_and_halts :
    (∀ (env : ExecEnv) (ext : Nat → ExtResult) (step : WorkflowStep),
      isKnownStepType step.step_type = false →
      executeStep env ext step =
        ⟨step.step_type, StepStatus.failed,
         some (("Unknown step type: ".toList) ++ step.step_type)⟩) ∧
    (∀ (env : ExecEnv) (exts : Nat → Nat → ExtResult) (i : Nat)
        (pre : List WorkflowStep) (step : WorkflowStep) (post : List WorkflowStep),
      isKnownStepType step.step_type = false →
      (executeWorkflowAux env exts i (pre ++ step :: post)).length ≤ pre.length + 1) :=
  ⟨fun env ext step h => executeStep_unknown_eq env ext step h,
   fun env exts i pre step post h => executeWorkflowAux_unknown_halts env exts step h pre i post⟩

/-- C10 witness: a concrete unknown step kind (`crash`) fails with the
expected error and halts its workflow after itself. -/
theorem unknown_step_type_fails_and_halts_witness :
    isKnownStepType (mkBareStep ("crash".toList)).step_type = false ∧
    executeStep exampleExecEnv extAllOk (mkBareStep ("crash".toList)) =
      ⟨("crash".toList), StepStatus.failed,
       some (("Unknown step type: ".toList) ++ ("crash".toList))⟩ :=
  ⟨by decide,
   unknown_step_type_fails_and_halts.1 exampleExecEnv extAllOk (mkBareStep ("crash".toList))
     (by decide)⟩

theorem sumSizes_append (a b : List PlanEntry) :
    sumSizes (a ++ b) = sumSizes a + sumSizes b := by
  simp [sumSizes]

theorem sumSizes_nil : sumSizes [] = 0 := rfl

theorem admitLoop_spec (m : Nat) :
    ∀ (p r : List PlanEntry) (u : Nat) (e : List SchedEvent),
      ∃ k, k ≤ p.length ∧
        (admitLoop m p r u e).pending = p.drop k ∧
        (admitLoop m p r u e).running = r ++ p.take k ∧
        (admitLoop m p r u e).nodes_in_use = u + sumSizes (p.take k) ∧
        (∀ t rest2, (admitLoop m p r u e).pending = t :: rest2 →
          m < (admitLoop m p r u e).nodes_in_use + clusterSizeOf t) := by
  intro p
  induction p with
  | nil =>
    intro r u e
    refine ⟨0, by simp, ?_, ?_, ?_, ?_⟩
    · simp [admitLoop]
    · simp [admitLoop]
    · simp [admitLoop, sumSizes]
    · intro t rest2 hcontra
      simp [admitLoop] at hcontra
  | cons t rest ih =>
    intro r u e
    by_cases hfit : u + clusterSizeOf t ≤ m
    · have hstep : admitLoop m (t :: rest) r u e
          = admitLoop m rest (r ++ [t]) (u + clusterSizeOf t)
            (e ++ [SchedEvent.started t (u + clusterSizeOf t)]) := by
        simp [admitLoop, hfit]
      obtain ⟨k, hk, h1, h2, h3, h4⟩ :=
        ih (r ++ [t]) (u + clusterSizeOf t) (e ++ [SchedEvent.started t (u + clusterSizeOf t)])
      refine ⟨k + 1, by simpa using Nat.succ_le_succ hk, ?_, ?_, ?_, ?_⟩
      · rw [hstep, h1]
        rfl
      · rw [hstep, h2]
        simp
      · rw [hstep, h3]
        rw [List.take_succ_cons]
        simp only [sumSizes, List.map_cons, List.sum_cons]
        omega
      · intro t2 rest2 hhead
        rw [hstep] at hhead ⊢
        exact h4 t2 rest2 hhead
    · have hstep : admitLoop m (t :: rest) r u e = ⟨t :: rest, r, u, e⟩ := by
        simp [admitLoop, hfit]
      refine ⟨0, by simp, ?_, ?_, ?_, ?_⟩
      · rw [hstep]; simp
      · rw [hstep]; simp
      · rw [hstep]; simp [sumSizes]
      · intro t2 rest2 hhead
        rw [hstep] at hhead ⊢
        simp at hhead
        rcases hhead with ⟨ht2, -⟩
        subst ht2
        simp
        omega

theorem admitLoop_le (m : Nat) :
    ∀ (p r : List PlanEntry) (u : Nat) (e : List SchedEvent),
      u ≤ m → (admitLoop m p r u e).nodes_in_use ≤ m := by
  intro p
  induction p with
  | nil => intro r u e h; simpa [admitLoop] using h
  | cons t rest ih =>
    intro r u e h
    by_cases hfit : u + clusterSizeOf t ≤ m
    · rw [show admitLoop m (t :: rest) r u e
          = admitLoop m rest (r ++ [t]) (u + clusterSizeOf t)
            (e ++ [SchedEvent.started t (u + clusterSizeOf t)]) from by
        simp [admitLoop, hfit]]
      exact ih _ _ _ hfit
    · rw [show admitLoop m (t :: rest) r u e = ⟨t :: rest, r, u, e⟩ from by
        simp [admitLoop, hfit]]
      exact h

theorem admitLoop_events (m : Nat) :
    ∀ (p r : List PlanEntry) (u : Nat) (e : List SchedEvent),
      (∀ ev ∈ e, eventNodes ev ≤ m) →
      ∀ ev ∈ (admitLoop m p r u e).events, eventNodes ev ≤ m := by
  intro p
  induction p with
  | nil => intro r u e h; simpa [admitLoop] using h
  | cons t rest ih =>
    intro r u e h
    by_cases hfit : u + clusterSizeOf t ≤ m
    · rw [show admitLoop m (t :: rest) r u e
          = admitLoop m rest (r ++ [t]) (u + clusterSizeOf t)
            (e ++ [SchedEvent.started t (u + clusterSizeOf t)]) from by
        simp [admitLoop, hfit]]
      refine ih _ _ _ ?_
      intro ev hev
      rcases List.mem_append.mp hev with h1 | h2
      · exact h ev h1
      · simp at h2
        rw [h2]
        simpa [eventNodes] using hfit
    · rw [show admitLoop m (t :: rest) r u e = ⟨t :: rest, r, u, e⟩ from by
        simp [admitLoop, hfit]]
      exact h

theorem perm_getD_eraseIdx (d : PlanEntry) :
    ∀ (l : List PlanEntry) (i : Nat), i < l.length →
      (l.getD i d :: l.eraseIdx i).Perm l := by
  intro l
  induction l with
  | nil => intro i hi; simp at hi
  | cons x xs ih =>
    intro i hi
    cases i with
    | zero => simp [List.getD, List.eraseIdx]
    | succ j =>
      have hj : j < xs.length := by simpa using hi
      have hperm := ih j hj
      have hswap : (xs.getD j d :: x :: xs.eraseIdx j).Perm (x :: xs.getD j d :: xs.eraseIdx j) :=
        List.Perm.swap x (xs.getD j d) (xs.eraseIdx j)
      refine ?_
      have h2 : (x :: xs.getD j d :: xs.eraseIdx j).Perm (x :: xs) := hperm.cons x
      have h3 := hswap.trans h2
      simpa [List.getD, List.eraseIdx] using h3

theorem schedLoop_spec (m : Nat) (choose : List PlanEntry → Nat) :
    ∀ (fuel : Nat) (p r : List PlanEntry) (u : Nat) (res : List PlanEntry)
      (e : List SchedEvent),
      p.length + r.length ≤ fuel →
      u = sumSizes r →
      u ≤ m →
      (∀ t ∈ p, clusterSizeOf t ≤ m) →
      (∀ t ∈ r, clusterSizeOf t ≤ m) →
      (∀ ev ∈ e, eventNodes ev ≤ m) →
      (schedLoop m choose fuel p r u res e).1.Perm (res ++ p ++ r) ∧
      (∀ ev ∈ (schedLoop m choose fuel p r u res e).2, eventNodes ev ≤ m) := by
  intro fuel
  induction fuel with
  | zero =>
    intro p r u res e hlen hu hle hp hr he
    have hp0 : p = [] := List.eq_nil_of_length_eq_zero (by omega)
    have hr0 : r = [] := List.eq_nil_of_length_eq_zero (by omega)
    subst hp0
    subst hr0
    simp only [schedLoop]
    exact ⟨by simp, he⟩
  | succ fuel ih =>
    intro p r u res e hlen hu hle hp hr he
    obtain ⟨k, hk, hpend, hrun, hused, hhead⟩ := admitLoop_spec m p r u e
    by_cases hnil : (admitLoop m p r u e).running = []
    · -- nothing running after admission: the loop stops
      have hre : r = [] ∧ p.take k = [] := by
        refine List.append_eq_nil.mp ?_
        rw [← hrun]
        exact hnil
      have hp0 : p = [] := by
        by_cases hk0 : p = []
        · exact hk0
        · exfalso
          have htk : k = 0 := by
            rcases List.take_eq_nil_iff.mp hre.2 with h0 | h0
            · exact h0
            · exact absurd h0 hk0
          cases hpc : p with
          | nil => exact hk0 hpc
          | cons t2 rest2 =>
            have hh := hhead t2 rest2 (by rw [hpend, htk, hpc, List.drop_zero])
            have hu0 : u = 0 := by rw [hu, hre.1]; rfl
            have hcs : clusterSizeOf t2 ≤ m := by
              refine hp t2 ?_
              rw [hpc]
              exact List.mem_cons_self t2 rest2
            rw [hused, htk] at hh
            simp only [List.take_zero, sumSizes_nil] at hh
            omega
      subst hp0
      have hr0 : r = [] := hre.1
      subst hr0
      simp only [schedLoop]
      rw [if_pos hnil]
      exact ⟨by simp, admitLoop_events m [] [] u e he⟩
    · -- complete one running test and recurse
      have hlpos : 0 < (admitLoop m p r u e).running.length := List.length_pos.mpr hnil
      have hi : choose (admitLoop m p r u e).running % (admitLoop m p r u e).running.length
          < (admitLoop m p r u e).running.length := Nat.mod_lt _ hlpos
      have hec := perm_getD_eraseIdx ⟨0, none, none, none⟩ (admitLoop m p r u e).running
        (choose (admitLoop m p r u e).running % (admitLoop m p r u e).running.length) hi
      -- abbreviations matching the zeta-reduced goal
      have hused_sum : (admitLoop m p r u e).nodes_in_use
          = sumSizes (admitLoop m p r u e).running := by
        rw [hused, hrun, sumSizes_append, hu]
      have hsum_erase : clusterSizeOf ((admitLoop m p r u e).running.getD
            (choose (admitLoop m p r u e).running % (admitLoop m p r u e).running.length)
            ⟨0, none, none, none⟩) +
          sumSizes ((admitLoop m p r u e).running.eraseIdx
            (choose (admitLoop m p r u e).running % (admitLoop m p r u e).running.length))
          = sumSizes (admitLoop m p r u e).running := by
        have := (hec.map clusterSizeOf).sum_eq
        simpa [sumSizes] using this
      have hlen_er : ((admitLoop m p r u e).running.eraseIdx
            (choose (admitLoop m p r u e).running % (admitLoop m p r u e).running.length)).length
            + 1
          = (admitLoop m p r u e).running.length := by
        have := hec.length_eq
        simpa using this
      have hlen_pr : (admitLoop m p r u e).pending.length
            + (admitLoop m p r u e).running.length = p.length + r.length := by
        rw [hpend, hrun]
        simp [List.length_drop, List.length_take]
        omega
      have hle2 := admitLoop_le m p r u e hle
      have harg1 : (admitLoop m p r u e).pending.length
          + ((admitLoop m p r u e).running.eraseIdx
            (choose (admitLoop m p r u e).running % (admitLoop m p r u e).running.length)).length
          ≤ fuel := by omega
      have harg2 : (admitLoop m p r u e).nodes_in_use - clusterSizeOf
            ((admitLoop m p r u e).running.getD
              (choose (admitLoop m p r u e).running % (admitLoop m p r u e).running.length)
              ⟨0, none, none, none⟩)
          = sumSizes ((admitLoop m p r u e).running.eraseIdx
            (choose (admitLoop m p r u e).running % (admitLoop m p r u e).running.length)) := by
      -- nodes_in_use = cs + sumSizes erase, so subtraction is exact
        omega
      have harg3 : (admitLoop m p r u e).nodes_in_use - clusterSizeOf
            ((admitLoop m p r u e).running.getD
              (choose (admitLoop m p r u e).running % (admitLoop m p r u e).running.length)
              ⟨0, none, none, none⟩)
          ≤ m := by omega
      have hmem_run : ∀ t ∈ (admitLoop m p r u e).running, clusterSizeOf t ≤ m := by
        intro t ht
        rw [hrun] at ht
        rcases List.mem_append.mp ht with h1 | h2
        · exact hr t h1
        · exact hp t (List.take_subset k p h2)
      have harg4 : ∀ t ∈ (admitLoop m p r u e).pending, clusterSizeOf t ≤ m := by
        intro t ht
        rw [hpend] at ht
        exact hp t (List.drop_subset k p ht)
      have harg5 : ∀ t ∈ (admitLoop m p r u e).running.eraseIdx
          (choose (admitLoop m p r u e).running % (admitLoop m p r u e).running.length),
          clusterSizeOf t ≤ m := by
        intro t ht
        refine hmem_run t ?_
        exact hec.subset (List.mem_cons_of_mem _ ht)
      have harg6 : ∀ ev ∈ (admitLoop m p r u e).events ++
          [SchedEvent.finished ((admitLoop m p r u e).running.getD
              (choose (admitLoop m p r u e).running % (admitLoop m p r u e).running.length)
              ⟨0, none, none, none⟩)
            ((admitLoop m p r u e).nodes_in_use - clusterSizeOf
              ((admitLoop m p r u e).running.getD
                (choose (admitLoop m p r u e).running % (admitLoop m p r u e).running.length)
                ⟨0, none, none, none⟩))],
          eventNodes ev ≤ m := by
        intro ev hev
        rcases List.mem_append.mp hev with h1 | h2
        · exact admitLoop_events m p r u e he ev h1
        · simp at h2
          rw [h2]
          simp only [eventNodes]
          omega
      have IH := ih (admitLoop m p r u e).pending
        ((admitLoop m p r u e).running.eraseIdx
          (choose (admitLoop m p r u e).running % (admitLoop m p r u e).running.length))
        ((admitLoop m p r u e).nodes_in_use - clusterSizeOf
          ((admitLoop m p r u e).running.getD
            (choose (admitLoop m p r u e).running % (admitLoop m p r u e).running.length)
            ⟨0, none, none, none⟩))
        (res ++ [(admitLoop m p r u e).running.getD
          (choose (admitLoop m p r u e).running % (admitLoop m p r u e).running.length)
          ⟨0, none, none, none⟩])
        ((admitLoop m p r u e).events ++
          [SchedEvent.finished ((admitLoop m p r u e).running.getD
              (choose (admitLoop m p r u e).running % (admitLoop m p r u e).running.length)
              ⟨0, none, none, none⟩)
            ((admitLoop m p r u e).nodes_in_use - clusterSizeOf
              ((admitLoop m p r u e).running.getD
                (choose (admitLoop m p r u e).running % (admitLoop m p r u e).running.length)
                ⟨0, none, none, none⟩))])
        harg1 harg2 harg3 harg4 harg5 harg6
      simp only [schedLoop]
      rw [if_neg hnil]
      refine ⟨IH.1.trans ?_, IH.2⟩
      have hshuffle : (((res ++ [(admitLoop m p r u e).running.getD
            (choose (admitLoop m p r u e).running % (admitLoop m p r u e).running.length)
            ⟨0, none, none, none⟩]) ++ (admitLoop m p r u e).pending) ++
          ((admitLoop m p r u e).running.eraseIdx
            (choose (admitLoop m p r u e).running % (admitLoop m p r u e).running.length))).Perm
          ((res ++ p) ++ r) := by
        have hstep1 : (((res ++ [(admitLoop m p r u e).running.getD
              (choose (admitLoop m p r u e).running % (admitLoop m p r u e).running.length)
              ⟨0, none, none, none⟩]) ++ (admitLoop m p r u e).pending) ++
            ((admitLoop m p r u e).running.eraseIdx
              (choose (admitLoop m p r u e).running % (admitLoop m p r u e).running.length)))
            = res ++ (((admitLoop m p r u e).running.getD
              (choose (admitLoop m p r u e).running % (admitLoop m p r u e).running.length)
              ⟨0, none, none, none⟩) :: ((admitLoop m p r u e).pending ++
              ((admitLoop m p r u e).running.eraseIdx
                (choose (admitLoop m p r u e).running %
                  (admitLoop m p r u e).running.length)))) := by
          simp
        rw [hstep1]
        rw [show (res ++ p) ++ r = res ++ (p ++ r) from List.append_assoc res p r]
        refine List.Perm.append_left res ?_
        refine List.Perm.trans List.perm_middle.symm ?_
        -- pending ++ t :: erase ~ p ++ r
        refine List.Perm.trans (List.Perm.append_left (admitLoop m p r u e).pending hec) ?_
        -- pending ++ running ~ p ++ r
        rw [hpend, hrun]
        -- drop k ++ (r ++ take k) ~ p ++ r
        refine List.Perm.trans (List.Perm.append_left (List.drop k p) List.perm_append_comm) ?_
        have hassoc : List.drop k p ++ (List.take k p ++ r)
            = (List.drop k p ++ List.take k p) ++ r := by simp
        rw [hassoc]
        refine List.Perm.append_right r ?_
        refine List.Perm.trans List.perm_append_comm ?_
        rw [List.take_append_drop]
      exact hshuffle

theorem insertBySizeDesc_perm (t : PlanEntry) :
    ∀ (l : List PlanEntry), (insertBySizeDesc t l).Perm (t :: l) := by
  intro l
  induction l with
  | nil => simp [insertBySizeDesc]
  | cons x xs ih =>
    by_cases hlt : clusterSizeOf x < clusterSizeOf t
    · rw [show insertBySizeDesc t (x :: xs) = t :: x :: xs from by
        simp [insertBySizeDesc, hlt]]
    · rw [show insertBySizeDesc t (x :: xs) = x :: insertBySizeDesc t xs from by
        simp [insertBySizeDesc, hlt]]
      refine List.Perm.trans (ih.cons x) ?_
      exact List.Perm.swap t x xs

theorem sortByClusterSizeDesc_foldl_perm :
    ∀ (l acc : List PlanEntry),
      (List.foldl (fun a t => insertBySizeDesc t a) acc l).Perm (acc ++ l) := by
  intro l
  induction l with
  | nil => intro acc; simp
  | cons t rest ih =>
    intro acc
    rw [List.foldl_cons]
    refine List.Perm.trans (ih (insertBySizeDesc t acc)) ?_
    refine List.Perm.trans (List.Perm.append_right rest (insertBySizeDesc_perm t acc)) ?_
    exact List.perm_middle.symm

theorem sortByClusterSizeDesc_perm (l : List PlanEntry) :
    (sortByClusterSizeDesc l).Perm l := by
  have h := sortByClusterSizeDesc_foldl_perm l []
  simpa [sortByClusterSizeDesc] using h

theorem schedTrans_preserves (max_nodes : Nat) {s s2 : SchedState}
    (h : SchedTrans max_nodes s s2)
    (hused : s.nodes_in_use = sumSizes s.running)
    (hle : s.nodes_in_use ≤ max_nodes) :
    s2.nodes_in_use = sumSizes s2.running ∧ s2.nodes_in_use ≤ max_nodes := by
  cases h with
  | admitHead t rest running used results hfit =>
    refine ⟨?_, hfit⟩
    simp only [sumSizes, List.map_append, List.sum_append, List.map_cons, List.sum_cons,
      List.map_nil, List.sum_nil] at hused ⊢
    omega
  | finish pending l1 l2 t used results =>
    constructor
    · simp only [sumSizes, List.map_append, List.sum_append, List.map_cons, List.sum_cons]
        at hused ⊢
      omega
    · simp only at hle ⊢
      omega

/-- C1: in every state the scheduler can reach, the shared `nodes_in_use`
counter equals the sum of `cluster_size` over the concurrently running tests
and never exceeds the configured node budget.  The transition relation
`SchedTrans` encodes the admission guard
(`nodes_in_use + cluster_size <= max_nodes`), the increment by exactly the
admitted test's cluster size, and the decrement by exactly the finished
test's cluster size. -/
theorem scheduler_nodes_budget_invariant (max_nodes : Nat) (plan : List PlanEntry)
    (s : SchedState) (h : SchedReachable max_nodes plan s) :
    s.nodes_in_use = sumSizes s.running ∧ sumSizes s.running ≤ max_nodes := by
  induction h with
  | refl => exact ⟨rfl, by simp [initSchedState, sumSizes]⟩
  | tail hsteps hstep ih =>
    obtain ⟨h1, h2⟩ := ih
    have h3 := schedTrans_preserves max_nodes hstep h1 (h1.trans_le h2)
    refine ⟨h3.1, ?_⟩
    rw [← h3.1]
    exact h3.2

/-- C1 witness: the invariant applies to the initial state of the concrete
scenario plan under budget 4. -/
theorem scheduler_nodes_budget_invariant_witness :
    (initSchedState scenarioPlan).nodes_in_use
        = sumSizes (initSchedState scenarioPlan).running ∧
      sumSizes (initSchedState scenarioPlan).running ≤ 4 :=
  scheduler_nodes_budget_invariant 4 scenarioPlan (initSchedState scenarioPlan)
    Relation.ReflTransGen.refl

/-- C2 (amended): provided every test's cluster size fits within the node
budget, the resource-aware scheduler runs all test cases to completion — the
returned result list is a permutation of the plan — and every recorded
scheduling event shows at most `max_nodes` nodes in use.  (The original
claim, for every capacity, fails: a test whose cluster size exceeds the
budget is silently dropped — see the counterexample.) -/
theorem scheduler_runs_all_tests (max_nodes : Nat) (choose : List PlanEntry → Nat)
    (plan : List PlanEntry) (hfit : ∀ t ∈ plan, clusterSizeOf t ≤ max_nodes) :
    (runScheduler max_nodes choose plan).1.Perm plan ∧
    ∀ ev ∈ (runScheduler max_nodes choose plan).2, eventNodes ev ≤ max_nodes := by
  have hsort := sortByClusterSizeDesc_perm plan
  have hlen : (sortByClusterSizeDesc plan).length + ([] : List PlanEntry).length
      ≤ plan.length + 1 := by
    rw [hsort.length_eq]
    simp
  have h := schedLoop_spec max_nodes choose (plan.length + 1) (sortByClusterSizeDesc plan)
    [] 0 [] [] hlen (by simp [sumSizes]) (Nat.zero_le _)
    (fun t ht => hfit t (hsort.subset ht))
    (fun t ht => absurd ht (List.not_mem_nil t))
    (fun ev hev => absurd hev (List.not_mem_nil ev))
  refine ⟨?_, h.2⟩
  refine List.Perm.trans h.1 ?_
  refine List.Perm.trans ?_ hsort
  simp

/-- C2 witness: the amended contract at the concrete scenario plan (all sizes
fit in budget 4). -/
theorem scheduler_runs_all_tests_witness :
    (∀ t ∈ scenarioPlan, clusterSizeOf t ≤ 4) ∧
    ((runScheduler 4 (fun _ => 0) scenarioPlan).1.Perm scenarioPlan ∧
      ∀ ev ∈ (runScheduler 4 (fun _ => 0) scenarioPlan).2, eventNodes ev ≤ 4) :=
  ⟨by decide, scheduler_runs_all_tests 4 (fun _ => 0) scenarioPlan (by decide)⟩

/-- C2 counterexample: with node budget 2, a plan holding one test of
cluster_size 3 produces an empty result list — the test is never admitted,
never executed and no result is recorded, refuting the claim that the
scheduler runs all test cases to completion for every capacity. -/
theorem scheduler_drops_oversized_test_counterexample :
    (runScheduler 2 (fun _ => 0) [⟨0, some 3, none, none⟩]).1 = [] ∧
    ([⟨0, some 3, none, none⟩] : List PlanEntry) ≠ [] := by decide

/-- C8: the scheduler sorts once by cluster size descending and then only ever
inspects the head of the pending queue.  First conjunct: the full concrete run
for budget 4 and sizes `[4,3,1,1]` — the size-4 test runs alone, on its
completion the size-3 test and one size-1 test are admitted, the remaining
size-1 test is admitted once capacity allows, and the recorded events show the
exact admission order.  Second conjunct: every recorded nodes-in-use value is
at most 4.  Third conjunct: whenever the head of the pending queue does not
fit, the admission loop stops without inspecting (or admitting) any further
entry, leaving queue, running set, counter and events untouched. -/
theorem scheduler_head_only_scenario :
    runScheduler 4 (fun _ => 0) scenarioPlan =
      (scenarioPlan,
       [SchedEvent.started planSize4 4, SchedEvent.finished planSize4 0,
        SchedEvent.started planSize3 3, SchedEvent.started planSize1a 4,
        SchedEvent.finished planSize3 1, SchedEvent.started planSize1b 2,
        SchedEvent.finished planSize1a 1, SchedEvent.finished planSize1b 0]) ∧
    (∀ ev ∈ (runScheduler 4 (fun _ => 0) scenarioPlan).2, eventNodes ev ≤ 4) ∧
    (∀ (m u : Nat) (t : PlanEntry) (rest running : List PlanEntry)
        (e : List SchedEvent),
      m < u + clusterSizeOf t →
      admitLoop m (t :: rest) running u e = ⟨t :: rest, running, u, e⟩) := by
  refine ⟨by decide, by decide, ?_⟩
  intro m u t rest running e hlt
  simp only [admitLoop, if_neg (by omega : ¬ (u + clusterSizeOf t ≤ m))]

/-- C8 witness: the head-only rule at a concrete oversized head (size 5 with
budget 4): nothing is admitted even though the queue is non-empty. -/
theorem scheduler_head_only_scenario_witness :
    (4 < 0 + clusterSizeOf ⟨9, some 5, none, none⟩) ∧
    admitLoop 4 [⟨9, some 5, none, none⟩] [] 0 []
      = ⟨[⟨9, some 5, none, none⟩], [], 0, []⟩ :=
  ⟨by decide,
   scheduler_head_only_scenario.2.2 4 0 ⟨9, some 5, none, none⟩ [] [] [] (by decide)⟩
